import Mathlib

/-!
Shallow embedding of the `django-polymorphic-tree` repository
(`polymorphic_tree/models.py` and `polymorphic_tree/utils/polymorphicadmin.py`)
and proofs of the specification claims about it.

Strings manipulated by the code (database table names, field names) are
embedded as `List Char` / `String`; Python integers as `Int`; database
lookups and registries as explicit functions; raised exceptions as explicit
error values of `Except` / sum types.
-/

namespace PolymorphicTree

/-! ### models.py — `PolymorphicMPTTModelBase.__new__` (table renaming)

The metaclass sets
`table_name_template = "nodetype_{app_label}_{model_name}"` and, for any
class one of whose bases was produced by the same metaclass, rewrites
`meta.db_table` when `meta.db_table.startswith(meta.app_label + '_')` holds
and the class is not abstract; the new name is the template applied to the
app label and to `meta.db_table[len(meta.app_label)+1:]`. -/

/-- `table_name_template.format(app_label=app, model_name=model)` from
`PolymorphicMPTTModelBase`. -/
def table_name_template (app model : List Char) : List Char :=
  "nodetype_".toList ++ app ++ '_' :: model

/-- The framework-assigned default table name `{app_label}_{model_name}`. -/
def default_db_table (app model : List Char) : List Char :=
  app ++ '_' :: model

/-- The `db_table` produced by `PolymorphicMPTTModelBase.__new__`.
`hasMetaBase` is `any(isinstance(base, mcs) for base in bases)` (false
exactly for the root definition of `PolymorphicMPTTModel` itself);
`abstract` is `meta.abstract`; `db_table` is the table name the underlying
machinery assigned before the hook runs. -/
def update_db_table (hasMetaBase : Bool) (abstract : Bool)
    (app db_table : List Char) : List Char :=
  if !hasMetaBase then db_table
  else if (app ++ ['_']).isPrefixOf db_table && !abstract then
    table_name_template app (db_table.drop (app.length + 1))
  else db_table

/-! ### models.py — `_get_base_polymorphic_model` -/

/-- A Python class as seen by `_get_base_polymorphic_model`: all the
function inspects is whether the class is an instance of
`PolymorphicMPTTModelBase` and whether it is the abstract root
`PolymorphicMPTTModel` itself.  `clsId` distinguishes classes. -/
structure PyClass where
  clsId : Nat
  isPolyMPTTMeta : Bool
  isRootModel : Bool
  deriving DecidableEq, Repr

/-- `_get_base_polymorphic_model(ChildModel)`: iterate over
`reversed(ChildModel.mro())` (the mro list is given most-derived first, as
Python produces it) and return the first class that is an instance of
`PolymorphicMPTTModelBase` and is not `PolymorphicMPTTModel`; `None` when
no iteration step returns. -/
def get_base_polymorphic_model (mro : List PyClass) : Option PyClass :=
  mro.reverse.find? (fun m => m.isPolyMPTTMeta && !m.isRootModel)

/-! ### models.py — `RestrictedTreeForeignKey` -/

/-- The value handed to `_validate_parent`, classified the way the Python
code classifies it: `none_` is `None`; `intPk` is an `int`/`long` primary
key; `node` is a live `PolymorphicMPTTModel` instance, of which the code
only reads `can_have_children`; `other` is any other Python value, of which
only its truthiness matters. -/
inductive ParentValue where
  | none_ : ParentValue
  | intPk : Int → ParentValue
  | node : Bool → ParentValue
  | other : Bool → ParentValue
  deriving DecidableEq, Repr

/-- Python truthiness of a `ParentValue` (`if not parent:`): `None` is
falsy, an `int` is falsy exactly when it is `0`, a model instance is
truthy. -/
def ParentValue.truthy : ParentValue → Bool
  | .none_ => false
  | .intPk pk => pk != 0
  | .node _ => true
  | .other t => t

/-- The exceptions `clean`/`_validate_parent` can raise:
`ValidationError(...)`, `ValueError(...)`, and the ORM `DoesNotExist`
escaping from `.get(pk=parent)`. -/
inductive CleanError where
  | validationError : String → CleanError
  | valueError : String → CleanError
  | doesNotExist : CleanError
  deriving DecidableEq, Repr

/-- The message of the `ValidationError` raised by `_validate_parent`. -/
def cannotHaveChildrenMsg : String := "The selected node cannot have child nodes."

/-- `RestrictedTreeForeignKey._validate_parent(parent, model_instance)`.
`db pk` is the database row of the base model with primary key `pk`
(reduced to its variant's `can_have_children` flag, the only attribute the
code reads), `none` when no such row exists. -/
def validate_parent (db : Int → Option Bool) (parent : ParentValue) :
    Except CleanError Unit :=
  if !parent.truthy then .ok ()
  else match parent with
    | .intPk pk =>
        match db pk with
        | none => .error .doesNotExist
        | some chc =>
            if chc then .ok ()
            else .error (.validationError cannotHaveChildrenMsg)
    | .node chc =>
        if chc then .ok ()
        else .error (.validationError cannotHaveChildrenMsg)
    | _ => .error (.valueError "Unknown parent value")

/-- `RestrictedTreeForeignKey.clean(value, model_instance)`: delegate to the
wrapped field's `clean` (passed in as `superClean`), validate its result
with `_validate_parent`, and return that result unchanged. -/
def clean (superClean : ParentValue → Except CleanError ParentValue)
    (db : Int → Option Bool) (value : ParentValue) :
    Except CleanError ParentValue :=
  match superClean value with
  | .error e => .error e
  | .ok v =>
      match validate_parent db v with
      | .error e => .error e
      | .ok _ => .ok v

/-- Python attribute lookup for `can_have_children` on a concrete variant:
the abstract base `PolymorphicMPTTModel` sets `can_have_children = True`
at class level, so a variant resolves to its own override when it declares
one and to `True` otherwise. -/
def variant_can_have_children (override : Option Bool) : Bool :=
  override.getD true

/-! ### polymorphicadmin.py — `PolymorphicParentModelAdmin` -/

/-- A concrete model class as seen by `_get_real_admin_by_ct`: the function
only asks `issubclass(model_class, self.base_model)`.  `mcId` distinguishes
classes. -/
structure ModelClass where
  mcId : Nat
  subclassOfBase : Bool
  deriving DecidableEq, Repr

/-- A `ContentType` row: `model_class()` returns the model class the row
points to, or `None` when that class no longer exists. -/
structure CType where
  modelClass : Option ModelClass
  deriving DecidableEq, Repr

/-- Outcome of resolving a content-type id to a concrete admin:
`http404` models a raised `Http404`, `permissionDenied` a raised
`PermissionDenied`, and `forwarded mc` a successful
`get_admin_for_model(model_class)` (the admin registered for `mc`, to which
the request is then forwarded). -/
inductive AdminResolution where
  | http404 : AdminResolution
  | permissionDenied : AdminResolution
  | forwarded : ModelClass → AdminResolution
  deriving DecidableEq, Repr

/-- `PolymorphicParentModelAdmin._get_real_admin_by_ct(ct_id)`.
`registry ctId` is `ContentType.objects.get_for_id(ct_id)`, `none` when the
lookup raises `DoesNotExist` (caught and re-raised as `Http404`). -/
def get_real_admin_by_ct (registry : Int → Option CType) (ctId : Int) :
    AdminResolution :=
  match registry ctId with
  | none => .http404
  | some ct =>
      match ct.modelClass with
      | none => .http404
      | some mc =>
          if mc.subclassOfBase then .forwarded mc else .permissionDenied

/-- A registered child model as used by `get_child_type_choices`: its
content-type id and its `_meta.verbose_name`. -/
structure ChildModel where
  ctId : Int
  verboseName : String
  deriving DecidableEq, Repr

/-- `PolymorphicParentModelAdmin.get_child_type_choices()`: one
`(ct.id, model._meta.verbose_name)` pair per registered child model, in
registration order. -/
def get_child_type_choices (models : List ChildModel) : List (Int × String) :=
  models.map fun m => (m.ctId, m.verboseName)

/-- Outcome of `add_type_view` on a GET request (no form data posted):
either an immediate `HttpResponseRedirect('?ct_id=...')` or a rendered
choice form whose `ct_id` field carries the given choices. -/
inductive AddTypeResult where
  | redirect : Int → AddTypeResult
  | form : List (Int × String) → AddTypeResult
  deriving DecidableEq, Repr

/-- `PolymorphicParentModelAdmin.add_type_view(request)` on a GET request:
with exactly one choice, redirect to `?ct_id={choices[0][0]}`; otherwise
build the (unbound, hence invalid) choice form, set its choices, and render
it.  `none` models the `IndexError` that `choices[0][0]` raises when no
child model is registered. -/
def add_type_view (choices : List (Int × String)) : Option AddTypeResult :=
  match choices with
  | [] => none
  | c :: rest =>
      if rest.isEmpty then some (.redirect c.1) else some (.form (c :: rest))

/-- Outcome of `add_view`: either the type-choice view was invoked, or the
request was forwarded to the sub-admin resolved from `ct_id`. -/
inductive AddViewResult where
  | choice : Option AddTypeResult → AddViewResult
  | forward : AdminResolution → AddViewResult
  deriving DecidableEq, Repr

/-- `PolymorphicParentModelAdmin.add_view(request)` on a GET request:
`ct_id = int(request.GET.get('ct_id', 0))` (`ctParam = none` when the query
parameter is absent); `if not ct_id:` invoke `add_type_view`, else forward
to `_get_real_admin_by_ct(ct_id)`. -/
def add_view (registry : Int → Option CType) (models : List ChildModel)
    (ctParam : Option Int) : AddViewResult :=
  let ctId := ctParam.getD 0
  if ctId == 0 then .choice (add_type_view (get_child_type_choices models))
  else .forward (get_real_admin_by_ct registry ctId)

/-! ### polymorphicadmin.py — `PolymorphicChildModelAdmin` fieldsets -/

/-- One admin fieldset: a title and the field names under `'fields'`. -/
structure Fieldset where
  title : Option String
  fields : List String
  deriving DecidableEq, Repr

/-- `PolymorphicChildModelAdmin.get_subclass_fields(request, obj)`.
`exclude` is `self.exclude`, `readonly` is
`self.get_readonly_fields(request, obj)`, and `formAvailable` lists, in
form-declared order, every field the unrestricted model form would carry;
`get_form(..., exclude=exclude+readonly)` therefore yields
`formAvailable` minus that exclusion list.  The fields of every base
fieldset are then removed with `list.remove` (first occurrence, ignoring
`ValueError` when absent). -/
def get_subclass_fields (exclude readonly formAvailable : List String)
    (base_fieldsets : List Fieldset) : List String :=
  let excl := exclude ++ readonly
  let formFields := formAvailable.filter (fun f => !excl.contains f)
  let subclass := formFields ++ readonly
  base_fieldsets.foldl (fun acc fs => fs.fields.foldl (fun a f => a.erase f) acc) subclass

/-- Outcome of `get_fieldsets`: `default` models falling through to
`super().get_fieldsets(request, obj)` (the stock `ModelAdmin` behaviour),
`computed` the fieldset list built here. -/
inductive FieldsetsResult where
  | default : FieldsetsResult
  | computed : List Fieldset → FieldsetsResult
  deriving DecidableEq, Repr

/-- `PolymorphicChildModelAdmin.get_fieldsets(request, obj)`:
with declared fieldsets or no `base_fieldsets`, delegate to the stock
implementation; otherwise compute the subclass fields and, when non-empty,
wedge them as an extra fieldset titled `extraTitle`
(`extra_fieldset_title`) between `base_fieldsets[0]` and
`base_fieldsets[1:]`. -/
def get_fieldsets (declaredFieldsets : Bool) (base_fieldsets : List Fieldset)
    (extraTitle : String) (exclude readonly formAvailable : List String) :
    FieldsetsResult :=
  if declaredFieldsets || base_fieldsets.isEmpty then .default
  else
    match base_fieldsets with
    | [] => .default
    | bf0 :: rest =>
        let other := get_subclass_fields exclude readonly formAvailable (bf0 :: rest)
        if other.isEmpty then .computed (bf0 :: rest)
        else .computed (bf0 :: ⟨some extraTitle, other⟩ :: rest)

/-! ## Theorems about the claims -/

/-- C1 (counterexample): the claim fails for a raw integer primary key of
`0`.  Take a database in which every row's variant has
`can_have_children = False` (so in particular the row with primary key `0`,
if any, is of such a variant `V`): passing the parent as the raw primary
key `0` is accepted by `_validate_parent` instead of failing, because
Python's `if not parent:` treats the integer `0` as empty. -/
theorem validate_parent_pk_zero_accepted :
    validate_parent (fun _ => some false) (.intPk 0) = .ok () := rfl

/-- C1 (amended): for a variant `V` with `can_have_children = False`,
parent validation fails with a `ValidationError` carrying the message
"The selected node cannot have child nodes.", whether the parent is passed
as a live node instance or as a raw *nonzero* integer primary key (a zero
primary key is treated as an empty value and accepted without any check);
for `can_have_children = True` the assignment is accepted. -/
theorem validate_parent_can_have_children (db : Int → Option Bool) (pk : Int)
    (hpk : pk ≠ 0) :
    (validate_parent db (.node false)
        = .error (.validationError cannotHaveChildrenMsg))
    ∧ (validate_parent db (.node true) = .ok ())
    ∧ (db pk = some false →
        validate_parent db (.intPk pk)
          = .error (.validationError cannotHaveChildrenMsg))
    ∧ (db pk = some true → validate_parent db (.intPk pk) = .ok ()) := by
  have hbne : (pk != 0) = true := by simpa using hpk
  refine ⟨rfl, rfl, ?_, ?_⟩ <;> intro h <;>
    simp [validate_parent, ParentValue.truthy, hbne, h]

/-- C1 witness: concrete run of `validate_parent_can_have_children` at
primary key `1` against a database whose rows all disallow children. -/
theorem validate_parent_can_have_children_witness :
    (1 : Int) ≠ 0 ∧ (fun (_ : Int) => some false) 1 = some false ∧
    validate_parent (fun _ => some false) (.intPk 1)
      = .error (.validationError cannotHaveChildrenMsg) :=
  ⟨by decide, rfl,
    (validate_parent_can_have_children (fun _ => some false) 1 (by decide)).2.2.1 rfl⟩

/-- C8: a parent value that is truthy (non-empty) and neither an integer
primary key nor a live node instance makes `_validate_parent` raise
`ValueError("Unknown parent value")`, the unrecoverable error for unknown
parent values. -/
theorem validate_parent_unknown_value (db : Int → Option Bool) :
    validate_parent db (.other true)
      = .error (.valueError "Unknown parent value") := rfl

/-- C9: when the wrapped field's `clean` resolves the value to something
empty (falsy), `_validate_parent` accepts it without consulting the
database at all, and `clean` returns the wrapped field's cleaned value. -/
theorem clean_empty_parent
    (superClean : ParentValue → Except CleanError ParentValue)
    (db : Int → Option Bool) (value v : ParentValue)
    (hsuper : superClean value = .ok v) (hempty : v.truthy = false) :
    validate_parent db v = .ok () ∧ clean superClean db value = .ok v := by
  have hval : validate_parent db v = .ok () := by
    simp [validate_parent, hempty]
  exact ⟨hval, by simp [clean, hsuper, hval]⟩

/-- C9 witness: concrete run of `clean_empty_parent` with an identity
wrapped-field `clean` and the value `None`. -/
theorem clean_empty_parent_witness :
    (fun (x : ParentValue) => (.ok x : Except CleanError ParentValue))
        ParentValue.none_ = .ok ParentValue.none_
    ∧ ParentValue.none_.truthy = false
    ∧ clean (fun x => .ok x) (fun _ => some false) ParentValue.none_
        = .ok ParentValue.none_ :=
  ⟨rfl, rfl,
    (clean_empty_parent (fun x => .ok x) (fun _ => some false)
      ParentValue.none_ ParentValue.none_ rfl rfl).2⟩

/-- C10: `can_have_children` defaults to `True` on the abstract base
class, so a variant that does not override the flag resolves it to `True`
and is accepted as a parent by `_validate_parent`. -/
theorem can_have_children_default (db : Int → Option Bool) :
    variant_can_have_children none = true
    ∧ validate_parent db (.node (variant_can_have_children none)) = .ok () :=
  ⟨rfl, rfl⟩

/-- C2: resolving an identity tag: an unknown content-type id raises
`Http404`; a content type whose model class no longer exists raises
`Http404`; a model class that is not a subclass of the declared base model
raises `PermissionDenied` and the request is never forwarded to any
sub-admin. -/
theorem get_real_admin_by_ct_spec (registry : Int → Option CType) (ctId : Int) :
    (registry ctId = none → get_real_admin_by_ct registry ctId = .http404)
    ∧ (∀ ct, registry ctId = some ct → ct.modelClass = none →
        get_real_admin_by_ct registry ctId = .http404)
    ∧ (∀ ct mc, registry ctId = some ct → ct.modelClass = some mc →
        mc.subclassOfBase = false →
        get_real_admin_by_ct registry ctId = .permissionDenied
        ∧ ∀ m, get_real_admin_by_ct registry ctId ≠ .forwarded m) := by
  refine ⟨?_, ?_, ?_⟩
  · intro h; simp [get_real_admin_by_ct, h]
  · intro ct h hmc; simp [get_real_admin_by_ct, h, hmc]
  · intro ct mc h hmc hsub
    simp [get_real_admin_by_ct, h, hmc, hsub]

/-- C2 witness: concrete run of `get_real_admin_by_ct_spec` on a registry
whose only content type points at a class that is not a subclass of the
base model. -/
theorem get_real_admin_by_ct_spec_witness :
    get_real_admin_by_ct (fun _ => some ⟨some ⟨7, false⟩⟩) 1
      = .permissionDenied :=
  ((get_real_admin_by_ct_spec (fun _ => some ⟨some ⟨7, false⟩⟩) 1).2.2
    ⟨some ⟨7, false⟩⟩ ⟨7, false⟩ rfl rfl rfl).1

/-- C6: on an add request with `ct_id` absent or `0`, the type-choice view
is invoked instead of any sub-admin; in the choice view, exactly one
registered variant yields an immediate redirect carrying that variant's
content-type id as `ct_id`, and two or more yield a rendered choice form
whose choices are exactly the registered variants, as
(content-type id, display name) pairs. -/
theorem add_view_spec (registry : Int → Option CType)
    (models : List ChildModel) (ctParam : Option Int) :
    ((ctParam = none ∨ ctParam = some 0) →
      add_view registry models ctParam
        = .choice (add_type_view (get_child_type_choices models)))
    ∧ (∀ m, models = [m] →
        add_type_view (get_child_type_choices models)
          = some (.redirect m.ctId))
    ∧ (2 ≤ models.length →
        add_type_view (get_child_type_choices models)
          = some (.form (models.map fun m => (m.ctId, m.verboseName)))) := by
  refine ⟨?_, ?_, ?_⟩
  · rintro (h | h) <;> subst h <;> simp [add_view]
  · rintro m rfl
    simp [add_type_view, get_child_type_choices]
  · intro h
    obtain ⟨m1, m2, rest, rfl⟩ : ∃ m1 m2 rest, models = m1 :: m2 :: rest := by
      match models, h with
      | m1 :: m2 :: rest, _ => exact ⟨m1, m2, rest, rfl⟩
    simp [add_type_view, get_child_type_choices]

/-- C6 witness: with one registered variant the add view (no `ct_id`)
redirects to that variant; with two variants the choice form lists
exactly the two registered variants. -/
theorem add_view_spec_witness :
    add_view (fun _ => none) [⟨3, "page"⟩] none
      = .choice (some (.redirect 3))
    ∧ add_type_view (get_child_type_choices [⟨3, "article"⟩, ⟨4, "file"⟩])
      = some (.form [(3, "article"), (4, "file")]) := by
  constructor
  · have h1 := (add_view_spec (fun _ => none) [⟨3, "page"⟩] none).1 (Or.inl rfl)
    have h2 := (add_view_spec (fun _ => none) [⟨3, "page"⟩] none).2.1
      ⟨3, "page"⟩ rfl
    rw [h1, h2]
  · have h3 := (add_view_spec (fun _ => none)
      [⟨3, "article"⟩, ⟨4, "file"⟩] none).2.2 (by simp)
    simpa using h3

/-- Helper: `find?` returns the marked element of a split whose left part
entirely fails the predicate. -/
theorem find?_append_cons_of_neg {α : Type} (p : α → Bool)
    (pre post : List α) (c : α)
    (hpre : ∀ x ∈ pre, p x = false) (hc : p c = true) :
    (pre ++ c :: post).find? p = some c := by
  induction pre with
  | nil => rw [List.nil_append, List.find?_cons_of_pos _ hc]
  | cons a t ih =>
      have ha : p a = false := hpre a (by simp)
      rw [List.cons_append, List.find?_cons_of_neg _ (by simp [ha])]
      exact ih fun x hx => hpre x (by simp [hx])

/-- C5: `_get_base_polymorphic_model` walks the mro from most-base to
most-derived (i.e. the reverse of Python's most-derived-first mro list) and
returns the first class that is an instance of the composite metaclass and
is not the abstract root `PolymorphicMPTTModel`; when no class of the mro
qualifies it returns `None`. -/
theorem get_base_polymorphic_model_spec (mro : List PyClass) :
    ((∀ x ∈ mro, ¬(x.isPolyMPTTMeta = true ∧ x.isRootModel = false)) →
      get_base_polymorphic_model mro = none)
    ∧ (∀ pre c post, mro.reverse = pre ++ c :: post →
        (∀ x ∈ pre, ¬(x.isPolyMPTTMeta = true ∧ x.isRootModel = false)) →
        c.isPolyMPTTMeta = true → c.isRootModel = false →
        get_base_polymorphic_model mro = some c) := by
  constructor
  · intro h
    rw [get_base_polymorphic_model, List.find?_eq_none]
    intro x hx
    have hnot := h x (List.mem_reverse.mp hx)
    simp only [Bool.and_eq_true, Bool.not_eq_true'] at *
    tauto
  · intro pre c post hsplit hpre hc hcroot
    rw [get_base_polymorphic_model, hsplit]
    refine find?_append_cons_of_neg _ pre post c ?_ (by simp [hc, hcroot])
    intro x hx
    have hnot := hpre x hx
    cases hp : x.isPolyMPTTMeta <;> cases hr : x.isRootModel <;> simp_all

/-- C5 witness: a concrete mro `[Derived, Base, PolymorphicMPTTModel,
object]` (most-derived first): the resolver skips `object` and the
abstract root and returns `Base`, the most-base class produced by the
metaclass. -/
theorem get_base_polymorphic_model_spec_witness :
    get_base_polymorphic_model
        [⟨2, true, false⟩, ⟨1, true, false⟩, ⟨0, true, true⟩, ⟨3, false, false⟩]
      = some ⟨1, true, false⟩ :=
  (get_base_polymorphic_model_spec _).2
    [⟨3, false, false⟩, ⟨0, true, true⟩] ⟨1, true, false⟩ [⟨2, true, false⟩]
    (by decide) (by decide) rfl rfl

/-- C3 (counterexample): the rewrite does not fire "exactly when the table
name still matches the framework default".  A concrete class whose model
name is `page` (default table `myapp_page`) but whose table name was
customized to `myapp_custom` is nevertheless rewritten (to
`nodetype_myapp_custom`), because the code only tests
`db_table.startswith(app_label + '_')`, not equality with the default. -/
theorem update_db_table_rewrites_custom_name :
    "myapp_custom".toList ≠ default_db_table "myapp".toList "page".toList
    ∧ update_db_table true false "myapp".toList "myapp_custom".toList
        ≠ "myapp_custom".toList := by
  constructor <;> decide

/-- C3 (amended): for a concrete (non-abstract) class produced by the
metaclass, the table name is rewritten to
`nodetype_{app_label}_{model_name}` exactly when it starts with
`{app_label}_` — which the framework default `{app_label}_{model_name}`
always does, but which a customized name may also do; a customized name not
starting with `{app_label}_`, the root class definition itself, and
abstract classes are left unchanged. -/
theorem update_db_table_spec (app model db_table : List Char)
    (abstract : Bool)
    (hnp : ¬(app ++ ['_']).isPrefixOf db_table = true) :
    (update_db_table true false app (default_db_table app model)
        = table_name_template app model)
    ∧ update_db_table true false app db_table = db_table
    ∧ update_db_table false abstract app db_table = db_table
    ∧ update_db_table true true app db_table = db_table := by
  refine ⟨?_, ?_, ?_, ?_⟩
  · have hpre : (app ++ ['_']).isPrefixOf (default_db_table app model) = true := by
      rw [ List.isPrefixOf_iff_prefix]
      exact ⟨model, by simp [default_db_table]⟩
    have hdrop : (default_db_table app model).drop (app.length + 1) = model := by
      have heq : default_db_table app model = (app ++ ['_']) ++ model := by
        simp [default_db_table]
      have hlen : app.length + 1 = (app ++ ['_']).length := by simp
      rw [heq, hlen, List.drop_left]
    simp [update_db_table, hpre, hdrop]
  · simp [update_db_table, Bool.eq_false_iff.mpr hnp]
  · simp [update_db_table]
  · simp [update_db_table]

/-- C3 witness: concrete run of `update_db_table_spec`: the default table
name `myapp_page` is rewritten to `nodetype_myapp_page`, while
`other_table` (custom, not starting with `myapp_`) is untouched. -/
theorem update_db_table_spec_witness :
    ¬("myapp".toList ++ ['_']).isPrefixOf "other_table".toList = true
    ∧ update_db_table true false "myapp".toList
        (default_db_table "myapp".toList "page".toList)
      = table_name_template "myapp".toList "page".toList
    ∧ update_db_table true false "myapp".toList "other_table".toList
      = "other_table".toList :=
  ⟨by decide,
    (update_db_table_spec "myapp".toList "page".toList "other_table".toList
      false (by decide)).1,
    (update_db_table_spec "myapp".toList "page".toList "other_table".toList
      false (by decide)).2.1⟩

/-- C7: fieldset synthesis.  First conjunct: with base fieldsets covering
`[a, b]` and a subclass form carrying `[a, b, c, d]`, the synthesized extra
fieldset holds exactly `[c, d]` in form order, placed immediately after the
first base fieldset.  Second conjunct: with the form additionally carrying
an excluded field `e` and a read-only field `f`, neither is drawn from the
form, but the read-only `f` is still surfaced in the synthesized
fieldset. -/
theorem get_fieldsets_synthesis (t title a b c d e f : String)
    (hae : a ≠ e) (haf : a ≠ f) (hbe : b ≠ e) (hbf : b ≠ f)
    (hce : c ≠ e) (hcf : c ≠ f) (hde : d ≠ e) (hdf : d ≠ f) :
    get_fieldsets false [⟨some t, [a, b]⟩] title [] [] [a, b, c, d]
      = .computed [⟨some t, [a, b]⟩, ⟨some title, [c, d]⟩]
    ∧ get_fieldsets false [⟨some t, [a, b]⟩] title [e] [f] [a, b, c, d, e, f]
      = .computed [⟨some t, [a, b]⟩, ⟨some title, [c, d, f]⟩] := by
  constructor
  · simp [get_fieldsets, get_subclass_fields]
  · simp [get_fieldsets, get_subclass_fields,
      hae, haf, hbe, hbf, hce, hcf, hde, hdf]

/-- C7 witness: concrete run of `get_fieldsets_synthesis` on field names
`a`–`f` with the default extra-fieldset title. -/
theorem get_fieldsets_synthesis_witness :
    get_fieldsets false [⟨some "main", ["a", "b"]⟩] "Contents"
        ["e"] ["f"] ["a", "b", "c", "d", "e", "f"]
      = .computed [⟨some "main", ["a", "b"]⟩, ⟨some "Contents", ["c", "d", "f"]⟩] :=
  (get_fieldsets_synthesis "main" "Contents" "a" "b" "c" "d" "e" "f"
    (by decide) (by decide) (by decide) (by decide)
    (by decide) (by decide) (by decide) (by decide)).2

/-- C4 (counterexample): the naming rule is not idempotent for every app
label.  For the app label `nodetype` itself, the normalized name
`nodetype_nodetype_foo` again starts with `{app_label}_`, so a second
application rewrites it to `nodetype_nodetype_nodetype_foo`. -/
theorem update_db_table_not_idempotent_nodetype :
    update_db_table true false "nodetype".toList
        (table_name_template "nodetype".toList "foo".toList)
      ≠ table_name_template "nodetype".toList "foo".toList := by
  decide

/-- Helper for C4: when the app label is neither `nodetype` itself nor an
extension of `nodetype_`, the normalized name does not start with
`{app_label}_`, so the rewrite condition is false on it. -/
theorem not_app_underscore_prefix_of_template (app model : List Char)
    (h1 : app ≠ "nodetype".toList)
    (h2 : ¬ "nodetype_".toList <+: app) :
    (app ++ ['_']).isPrefixOf (table_name_template app model) = false := by
  rw [Bool.eq_false_iff]
  intro hyp
  rw [ List.isPrefixOf_iff_prefix] at hyp
  have hfull : table_name_template app model
      = "nodetype_".toList ++ (app ++ '_' :: model) := by
    simp [table_name_template]
  rw [hfull] at hyp
  have h9 : "nodetype_".toList <+: "nodetype_".toList ++ (app ++ '_' :: model) :=
    List.prefix_append _ _
  by_cases hlen : app.length + 1 ≤ 9
  · have hsub : (app ++ ['_']) <+: "nodetype_".toList :=
      List.prefix_of_prefix_length_le hyp h9 (by simpa using hlen)
    have htake : app ++ ['_'] = ("nodetype_".toList).take (app.length + 1) := by
      have h := List.prefix_iff_eq_take.mp hsub
      simpa using h
    obtain ⟨n, hn⟩ : ∃ n, app.length = n := ⟨_, rfl⟩
    rw [hn] at htake
    have hle : n ≤ 8 := by omega
    have hlast : some '_' = (("nodetype_".toList).take (n + 1)).getLast? := by
      rw [← htake]
      exact (List.getLast?_concat _).symm
    have hn0 : 0 ≤ n := Nat.zero_le n
    interval_cases n
    all_goals try exact absurd hlast (by decide)
    -- n = 8: the app label is exactly `nodetype`
    have happ : app = "nodetype".toList := by
      have h8 : app ++ ['_'] = "nodetype".toList ++ ['_'] := by
        rw [htake]; decide
      exact List.append_inj_left' h8 rfl
    exact h1 happ
  · have h9a : "nodetype_".toList <+: app ++ ['_'] :=
      List.prefix_of_prefix_length_le h9 hyp (by simp; omega)
    have happ : "nodetype_".toList <+: app :=
      List.prefix_of_prefix_length_le h9a (List.prefix_append app ['_'])
        (by simp; omega)
    exact h2 happ

/-- C4 (amended): the rewrite rule is idempotent for every app label that
is neither `nodetype` itself nor starts with `nodetype_`: applied to the
already-normalized name `nodetype_{app_label}_{model_name}` it yields that
same name.  (For the app label `nodetype`, and for some labels starting
with `nodetype_`, the normalized name again starts with `{app_label}_` and
is rewritten once more.) -/
theorem update_db_table_idempotent (app model : List Char)
    (h1 : app ≠ "nodetype".toList)
    (h2 : ¬ "nodetype_".toList <+: app) :
    update_db_table true false app (table_name_template app model)
      = table_name_template app model := by
  have hfalse := not_app_underscore_prefix_of_template app model h1 h2
  simp [update_db_table, hfalse]

/-- C4 witness: concrete run of `update_db_table_idempotent` on app label
`myapp` and model name `foo`. -/
theorem update_db_table_idempotent_witness :
    "myapp".toList ≠ "nodetype".toList
    ∧ ¬ "nodetype_".toList <+: "myapp".toList
    ∧ update_db_table true false "myapp".toList
        (table_name_template "myapp".toList "foo".toList)
      = table_name_template "myapp".toList "foo".toList :=
  ⟨by decide, by decide,
    update_db_table_idempotent "myapp".toList "foo".toList
      (by decide) (by decide)⟩

end PolymorphicTree
